import Mathlib

/-!
Verification of the timeline compositor of the For-Youtube repository
(`src/services/utils.ts`): image timing, Ken-Burns zoom, fade transitions,
audio mixing and skip logic of `renderVideo`, plus `generateTitleCard`.

Times and gains are modelled as exact rationals (`ℚ`); the JavaScript
`Math.floor` is `Int.floor`.  Decoding of audio and loading of images are
host-environment operations and are modelled by explicit oracle functions.
-/

namespace FY

/-- Animation speed presets (`VideoConfig.animationSpeed` in `types.ts`). -/
inductive AnimationSpeed where
  | Slow
  | Medium
  | Fast
deriving DecidableEq, Repr

/-- Transition presets (`VideoConfig.transition` in `types.ts`). -/
inductive Transition where
  | None
  | Fade
deriving DecidableEq, Repr

/-- Per-tick image-timing result: the triple `(imgIndex, currentImageStartTime,
currentImageDuration)` computed in the animation loop of `renderVideo`
(utils.ts lines 212-245). -/
structure ImageTiming where
  imgIndex : ℤ
  startTime : ℚ
  imageDuration : ℚ
deriving DecidableEq, Repr

/-- The image-timing logic of the animation loop of `renderVideo`
(utils.ts lines 217-245): given whether the section has a title card, the
number of loaded images, the section duration and the elapsed time in the
section, compute the active image index and its interval. -/
def imageTiming (hasTitleCard : Bool) (numImages : ℕ) (duration sectionElapsed : ℚ) :
    ImageTiming :=
  if hasTitleCard then
    let titleDuration := min 4 (duration * 0.5)
    if sectionElapsed < titleDuration then
      ⟨0, 0, titleDuration⟩
    else
      let remainingTime := duration - titleDuration
      if remainingTime > 0 ∧ numImages > 1 then
        let contentImagesCount : ℚ := ((numImages : ℚ) - 1)
        let contentElapsed := sectionElapsed - titleDuration
        let timePerImage := remainingTime / contentImagesCount
        let contentIndex := ⌊contentElapsed / timePerImage⌋
        ⟨1 + contentIndex, titleDuration + (contentIndex : ℚ) * timePerImage, timePerImage⟩
      else
        ⟨0, 0, duration⟩
  else
    let timePerImage := duration / (numImages : ℚ)
    let imgIndex := ⌊sectionElapsed / timePerImage⌋
    ⟨imgIndex, (imgIndex : ℚ) * timePerImage, timePerImage⟩

/-- The interval list of a section without a title card, derived from the
per-tick logic by sampling `imageTiming` at the left endpoint of each of the
`numImages` claimed intervals. -/
def planIntervalsNoTitle (numImages : ℕ) (duration : ℚ) : List (ℚ × ℚ) :=
  (List.range numImages).map (fun (i : ℕ) =>
    let tm := imageTiming false numImages duration ((i : ℚ) * (duration / (numImages : ℚ)))
    (tm.startTime, tm.imageDuration))

/-- Zoom multipliers per animation speed (`zoomFactors`, utils.ts line 144). -/
def zoomFactors : AnimationSpeed → ℚ
  | AnimationSpeed.Slow => 1.05
  | AnimationSpeed.Medium => 1.15
  | AnimationSpeed.Fast => 1.25

/-- Ken-Burns zoom scale (`drawImage`, utils.ts line 252):
`currentScale = 1.0 + (maxZoom - 1.0) * progress`. -/
def kenBurnsScale (maxZoom progress : ℚ) : ℚ := 1.0 + (maxZoom - 1.0) * progress

/-- The clamped zoom progress of the active image
(`imgProgress`, utils.ts line 275):
`min 1 (max 0 ((elapsed - start) / duration))`. -/
def clampProgress (sectionElapsed startTime imageDuration : ℚ) : ℚ :=
  min 1 (max 0 ((sectionElapsed - startTime) / imageDuration))

/-- A call to the `drawImage` helper issued while composing one frame: the
index of the image in `loadedImages`, the zoom progress passed, and the
opacity passed. -/
structure DrawOp where
  imgIdx : ℕ
  progress : ℚ
  alpha : ℚ
deriving DecidableEq, Repr

/-- `fadeDuration` (utils.ts line 146):
`transitionType === 'Fade' ? 0.5 : 0`. -/
def fadeDuration (transitionType : Transition) : ℚ :=
  if transitionType = Transition.Fade then 0.5 else 0

/-- The clamped list index used for the active image
(utils.ts line 274): `Math.min(imgIndex, loadedImages.length - 1)`. -/
def currentImageIndex (imgIndex : ℤ) (numImages : ℕ) : ℤ :=
  min imgIndex ((numImages : ℤ) - 1)

/-- The sequence of `drawImage` calls issued for one frame of the animation
loop (utils.ts lines 273-296), after the canvas is cleared to black: the
active image always, plus — under a Fade transition, when a next image exists
and fewer than `fadeDuration` time units remain in the active interval — the
next image on top at the fade-in opacity with zoom progress 0. -/
def frameOps (transitionType : Transition) (numImages : ℕ) (tm : ImageTiming)
    (sectionElapsed : ℚ) : List DrawOp :=
  let imgProgress := clampProgress sectionElapsed tm.startTime tm.imageDuration
  let currentOp : DrawOp :=
    ⟨(currentImageIndex tm.imgIndex numImages).toNat, imgProgress, 1.0⟩
  if transitionType = Transition.Fade ∧ tm.imgIndex < (numImages : ℤ) - 1 then
    let timeRemaining := tm.imageDuration - (sectionElapsed - tm.startTime)
    if timeRemaining < fadeDuration transitionType then
      [currentOp, ⟨(tm.imgIndex + 1).toNat, 0, 1 - timeRemaining / fadeDuration transitionType⟩]
    else
      [currentOp]
  else
    [currentOp]

/-- A section of the project (`GeneratedSection` in `types.ts`); only the
fields the renderer reads.  Asset handles are the base64 data-URI strings of
the source; `none`/`""` are the JavaScript falsy cases. -/
structure GeneratedSection where
  title : Option String
  generatedImages : List String
  generatedAudio : Option String
  titleCard : Option String
deriving DecidableEq, Repr

/-- Render configuration (`VideoConfig` in `types.ts`); only the fields the
renderer reads. -/
structure VideoConfig where
  aspectRatio : String
  animationSpeed : AnimationSpeed
  transition : Transition
  bgMusicVolume : ℚ
deriving DecidableEq, Repr

/-- Project data (`ProjectData` in `types.ts`); only the fields the renderer
reads. -/
structure ProjectData where
  intro : GeneratedSection
  parts : List GeneratedSection
  config : Option VideoConfig
  backgroundMusic : Option String
deriving DecidableEq, Repr

/-- Host-environment oracle: the result of `audioCtx.decodeAudioData` on a
fetched handle — `some duration` when the asset decodes, `none` when decoding
throws. -/
structure MediaEnv where
  decodeAudio : String → Option ℚ

/-- `imagesToShow` (utils.ts lines 170-172): the title card, when truthy,
followed by the generated images. -/
def imagesToShow (s : GeneratedSection) : List String :=
  (match s.titleCard with
   | some t => if t = "" then [] else [t]
   | none => []) ++ s.generatedImages

/-- `validSrcs` (utils.ts line 173): `imagesToShow.filter(Boolean)`. -/
def validSrcs (s : GeneratedSection) : List String :=
  (imagesToShow s).filter (fun x => x != "")

/-- The decoded voice buffer of a section (utils.ts lines 157-165):
`none` when no (truthy) narration handle exists or decoding fails. -/
def decodeVoice (env : MediaEnv) (s : GeneratedSection) : Option ℚ :=
  match s.generatedAudio with
  | some src => if src = "" then none else env.decodeAudio src
  | none => none

/-- The section timeline duration (utils.ts line 167):
`voiceBuffer ? voiceBuffer.duration : 5`. -/
def sectionDuration (env : MediaEnv) (s : GeneratedSection) : ℚ :=
  (decodeVoice env s).getD 5

/-- Number of ticks of the 30 fps animation loop over a section of the given
duration, on the idealised clock with tick `k` at elapsed `k / 30`: ticks run
while `elapsed < duration` (utils.ts lines 200-210). -/
def tickCount (duration : ℚ) : ℕ := (⌈duration * 30⌉).toNat

/-- What one iteration of the section loop of `renderVideo` contributes to
the output (utils.ts lines 151-300). -/
structure SectionResult where
  duration : ℚ
  narrationPlays : Bool
  frameCount : ℕ
  rendered : Bool
deriving DecidableEq, Repr

/-- One iteration of the section loop (utils.ts lines 151-300): decode the
narration, derive the duration, and — unless `validSrcs` is empty, in which
case the loop `continue`s before playing audio or drawing (line 175) — play
the narration when decoded and run the frame loop for the duration. -/
def renderSection (env : MediaEnv) (s : GeneratedSection) : SectionResult :=
  let voiceBuffer := decodeVoice env s
  let duration := sectionDuration env s
  if validSrcs s = [] then ⟨0, false, 0, false⟩
  else ⟨duration, voiceBuffer.isSome, tickCount duration, true⟩

/-- The ordered section list (utils.ts line 149): `[data.intro, ...data.parts]`. -/
def sections (data : ProjectData) : List GeneratedSection :=
  data.intro :: data.parts

/-- The background-music source prepared by `renderVideo`
(utils.ts lines 106-125): attempted only when the handle and the config are
truthy and the configured volume is positive; on decode success it is set to
loop with gain `bgMusicVolume * 0.5`; on decode failure the render keeps no
background source. -/
structure BgTrack where
  gain : ℚ
  loop : Bool
deriving DecidableEq, Repr

def bgTrack (env : MediaEnv) (data : ProjectData) : Option BgTrack :=
  match data.backgroundMusic, data.config with
  | some bm, some cfg =>
    if bm ≠ "" ∧ cfg.bgMusicVolume ≠ 0 ∧ cfg.bgMusicVolume > 0 then
      match env.decodeAudio bm with
      | some _ => some ⟨cfg.bgMusicVolume * 0.5, true⟩
      | none => none
    else none
  | _, _ => none

/-- Ordered observable events of one `renderVideo` run. -/
inductive RenderEvent where
  | bgStart (gain : ℚ) (loop : Bool)
  | sectionDone (res : SectionResult)
  | bgStop
deriving DecidableEq, Repr

/-- The event order of `renderVideo`: the background source, if prepared, is
started before the section loop (utils.ts line 121) and stopped after the
last section finishes (lines 302-305); every section is processed in order. -/
def renderEvents (env : MediaEnv) (data : ProjectData) : List RenderEvent :=
  (match bgTrack env data with
   | some bt => [RenderEvent.bgStart bt.gain bt.loop]
   | none => []) ++
  ((sections data).map fun s => RenderEvent.sectionDone (renderSection env s)) ++
  (match bgTrack env data with
   | some _ => [RenderEvent.bgStop]
   | none => [])

/-- Total duration contributed to the output by a list of sections. -/
def totalDuration (env : MediaEnv) (ss : List GeneratedSection) : ℚ :=
  (ss.map fun s => (renderSection env s).duration).sum

/-- Total frame count contributed to the output by a list of sections. -/
def totalFrames (env : MediaEnv) (ss : List GeneratedSection) : ℕ :=
  (ss.map fun s => (renderSection env s).frameCount).sum

/-- Canvas dimensions of `generateTitleCard` (utils.ts lines 17-25). -/
def titleCardDims (aspectRatio : String) : ℕ × ℕ :=
  if aspectRatio = "9:16" then (1080, 1920) else (1920, 1080)

/-- Font size of `generateTitleCard` (utils.ts line 41). -/
def titleFontSize (aspectRatio : String) : ℕ :=
  if aspectRatio = "9:16" then 70 else 80

/-- Wrap margin of `generateTitleCard` (utils.ts line 47). -/
def titleMargin (aspectRatio : String) : ℕ :=
  if aspectRatio = "9:16" then 100 else 200

/-- The greedy word-wrap loop of `generateTitleCard` (utils.ts lines 52-63):
accumulate words into `line`; when the measured test line overflows
`maxWidth` and this is not the first word, emit `line` and restart from the
current word; after the loop the pending line is emitted. -/
def wrapLoop (measure : String → ℚ) (maxWidth : ℚ) :
    List String → ℕ → String → List String
  | [], _, line => [line]
  | w :: ws, n, line =>
    let testLine := line ++ w ++ " "
    if measure testLine > maxWidth ∧ n > 0 then
      line :: wrapLoop measure maxWidth ws (n + 1) (w ++ " ")
    else
      wrapLoop measure maxWidth ws (n + 1) testLine

/-- Auxiliary recursion of `jsSplitSpace` over the character list, carrying
the characters of the current field in reverse. -/
def jsSplitSpaceAux : List Char → List Char → List String
  | [], acc => [String.mk acc.reverse]
  | c :: cs, acc =>
    if c = ' ' then String.mk acc.reverse :: jsSplitSpaceAux cs []
    else jsSplitSpaceAux cs (c :: acc)

/-- JavaScript `text.split(' ')` (utils.ts line 48): split on every single
space, keeping empty fields; the empty string yields `[""]`. -/
def jsSplitSpace (text : String) : List String :=
  jsSplitSpaceAux text.toList []

/-- The image asset produced by `generateTitleCard`: canvas size, fill
colours, font size and the wrapped lines with the start ordinate of the
vertically centred block. -/
structure TitleCard where
  width : ℕ
  height : ℕ
  background : String
  textColor : String
  fontSize : ℕ
  lines : List String
  startY : ℚ
deriving DecidableEq, Repr

/-- `generateTitleCard` (utils.ts lines 12-76), with the 2d-context text
metrics supplied by the `measure` oracle: black canvas sized by aspect ratio,
white bold text word-wrapped against `canvasWidth - margin` and centred
vertically with `lineHeight = fontSize * 1.3`. -/
def generateTitleCard (measure : String → ℚ) (text : String)
    (aspectRatio : String) : TitleCard :=
  let dims := titleCardDims aspectRatio
  let fontSize := titleFontSize aspectRatio
  let maxWidth : ℚ := (dims.1 : ℚ) - (titleMargin aspectRatio : ℚ)
  let lines := wrapLoop measure maxWidth (jsSplitSpace text) 0 ""
  let lineHeight : ℚ := (fontSize : ℚ) * 1.3
  let totalHeight : ℚ := (lines.length : ℚ) * lineHeight
  ⟨dims.1, dims.2, "#000000", "#FFFFFF", fontSize, lines,
    ((dims.2 : ℚ) - totalHeight) / 2 + lineHeight / 2⟩

/-- An image element as the renderer sees it after preloading; a failed load
yields `new Image()` whose `width` is 0. -/
structure Img where
  width : ℕ
  height : ℕ
deriving DecidableEq, Repr

/-- Preloading of one source (utils.ts lines 178-185): the promise always
resolves — with the loaded image, or with a fresh empty `Image` (width 0) on
`onerror`.  `load` is the host-environment oracle. -/
def loadImage (load : String → Option Img) (src : String) : Img :=
  match load src with
  | some img => img
  | none => ⟨0, 0⟩

/-- One concrete `ctx.drawImage` call: position, size and opacity. -/
structure CanvasDraw where
  x : ℚ
  y : ℚ
  w : ℚ
  h : ℚ
  alpha : ℚ
deriving DecidableEq, Repr

/-- The `drawImage` helper (utils.ts lines 248-267): a no-op for a null or
width-0 image, otherwise cover-fit at the Ken-Burns scale, centred, at the
given opacity. -/
def drawImage (canvasW canvasH : ℕ) (maxZoom : ℚ) (img : Option Img)
    (progress alpha : ℚ) : Option CanvasDraw :=
  match img with
  | none => none
  | some im =>
    if im.width = 0 then none
    else
      let currentScale := kenBurnsScale maxZoom progress
      let ratioW := (canvasW : ℚ) / (im.width : ℚ)
      let ratioH := (canvasH : ℚ) / (im.height : ℚ)
      let baseScale := max ratioW ratioH
      let finalScale := baseScale * currentScale
      let scaledW := (im.width : ℚ) * finalScale
      let scaledH := (im.height : ℚ) * finalScale
      some ⟨((canvasW : ℚ) - scaledW) / 2, ((canvasH : ℚ) - scaledH) / 2,
        scaledW, scaledH, alpha⟩

/-- The draws that land on the canvas for one frame, after it is cleared to
black: the frame's `drawImage` calls, dropping the no-ops.  An empty result
is a solid black frame. -/
def renderedFrame (canvasW canvasH : ℕ) (maxZoom : ℚ) (images : List Img)
    (ops : List DrawOp) : List CanvasDraw :=
  ops.filterMap fun op =>
    drawImage canvasW canvasH maxZoom images[op.imgIdx]? op.progress op.alpha

lemma floor_div_eq_of_mem (per t : ℚ) (i : ℕ) (hper : 0 < per)
    (h1 : (i : ℚ) * per ≤ t) (h2 : t < ((i : ℚ) + 1) * per) :
    ⌊t / per⌋ = (i : ℤ) := by
  rw [Int.floor_eq_iff]
  constructor
  · rw [le_div_iff₀ hper]
    push_cast
    linarith
  · rw [div_lt_iff₀ hper]
    push_cast
    linarith

lemma imageTiming_noTitle_interval (N : ℕ) (D : ℚ) (hN : 0 < N) (hD : 0 < D)
    (i : ℕ) (t : ℚ)
    (h1 : (i : ℚ) * (D / N) ≤ t) (h2 : t < ((i : ℚ) + 1) * (D / N)) :
    imageTiming false N D t = ⟨(i : ℤ), (i : ℚ) * (D / N), D / N⟩ := by
  have hper : 0 < D / (N : ℚ) := div_pos hD (by exact_mod_cast hN)
  have hfl : ⌊t / (D / (N : ℚ))⌋ = (i : ℤ) := floor_div_eq_of_mem _ t i hper h1 h2
  simp only [imageTiming, Bool.false_eq_true, if_false, hfl]
  norm_num

/-- C1: for a section with no title card, `N > 0` images and duration `D > 0`,
the timing logic partitions `D` evenly: at every elapsed `t ∈ [0, D)` the
active index is `⌊t / (D/N)⌋` and lies in `[0, N)`, the reported interval is
`(index * (D/N), D/N)`; the derived interval list has `N` entries, entry `i`
being `(i * (D/N), D/N)`, durations summing exactly to `D`, start times
strictly increasing and contiguous; on interval `i` the active image is `i`. -/
theorem C1_noTitle_even_partition (N : ℕ) (D : ℚ) (hN : 0 < N) (hD : 0 < D) :
    (∀ t : ℚ, 0 ≤ t → t < D →
      (imageTiming false N D t).imgIndex = ⌊t / (D / N)⌋ ∧
      0 ≤ ⌊t / (D / N)⌋ ∧ ⌊t / (D / N)⌋ < (N : ℤ) ∧
      (imageTiming false N D t).startTime = (⌊t / (D / N)⌋ : ℚ) * (D / N) ∧
      (imageTiming false N D t).imageDuration = D / N) ∧
    (planIntervalsNoTitle N D).length = N ∧
    (∀ i : ℕ, i < N → (planIntervalsNoTitle N D)[i]? = some ((i : ℚ) * (D / N), D / N)) ∧
    ((planIntervalsNoTitle N D).map Prod.snd).sum = D ∧
    (∀ i : ℕ, (i : ℚ) * (D / N) < ((i : ℚ) + 1) * (D / N) ∧
      (i : ℚ) * (D / N) + D / N = ((i : ℚ) + 1) * (D / N)) ∧
    (∀ i : ℕ, i < N → ∀ t : ℚ, (i : ℚ) * (D / N) ≤ t → t < ((i : ℚ) + 1) * (D / N) →
      imageTiming false N D t = ⟨(i : ℤ), (i : ℚ) * (D / N), D / N⟩) := by
  have hN' : (0 : ℚ) < (N : ℚ) := by exact_mod_cast hN
  have hNne : (N : ℚ) ≠ 0 := ne_of_gt hN'
  have hper : 0 < D / (N : ℚ) := div_pos hD hN'
  refine ⟨?_, ?_, ?_, ?_, ?_, ?_⟩
  · intro t ht htD
    have hNDN : (N : ℚ) * (D / N) = D := by field_simp
    have hnn : 0 ≤ t / (D / N) := div_nonneg ht (le_of_lt hper)
    have hlt : t / (D / N) < (N : ℚ) := by
      rw [div_lt_iff₀ hper, hNDN]
      exact htD
    refine ⟨rfl, Int.floor_nonneg.mpr hnn, ?_, rfl, rfl⟩
    exact Int.floor_lt.mpr (by exact_mod_cast hlt)
  · simp only [planIntervalsNoTitle, List.length_map, List.length_range]
  · intro i hi
    have hend : imageTiming false N D ((i : ℚ) * (D / N)) =
        ⟨(i : ℤ), (i : ℚ) * (D / N), D / N⟩ := by
      refine imageTiming_noTitle_interval N D hN hD i _ le_rfl ?_
      have : (0 : ℚ) < D / N := hper
      nlinarith
    simp only [planIntervalsNoTitle, List.getElem?_map, List.getElem?_range hi]
    simp [hend]
  · have hmap : (planIntervalsNoTitle N D).map Prod.snd =
        List.replicate N (D / N) := by
      simp only [planIntervalsNoTitle, List.map_map]
      rw [List.eq_replicate_iff]
      refine ⟨by simp, ?_⟩
      intro b hb
      simp only [List.mem_map, List.mem_range] at hb
      obtain ⟨i, _, hib⟩ := hb
      simpa [imageTiming] using hib.symm
    rw [hmap, List.sum_replicate, nsmul_eq_mul]
    field_simp
  · intro i
    constructor
    · nlinarith
    · ring
  · intro i hi t h1 h2
    exact imageTiming_noTitle_interval N D hN hD i t h1 h2

/-- Witness for C1: two images, duration 4; at elapsed 3 the second image
(interval `[2, 4)`) is active. -/
theorem C1_noTitle_even_partition_witness :
    0 < (2 : ℕ) ∧ (0 : ℚ) < 4 ∧
    imageTiming false 2 4 3 = ⟨1, (1 : ℚ) * (4 / (2 : ℕ)), 4 / (2 : ℕ)⟩ := by
  refine ⟨by norm_num, by norm_num, ?_⟩
  exact (C1_noTitle_even_partition 2 4 (by norm_num) (by norm_num)).2.2.2.2.2 1
    (by norm_num) 3 (by push_cast; norm_num) (by push_cast; norm_num)

lemma imageTiming_title_head (C : ℕ) (D : ℚ) (t : ℚ)
    (ht : t < min 4 (D * 0.5)) :
    imageTiming true (C + 1) D t = ⟨0, 0, min 4 (D * 0.5)⟩ := by
  simp [imageTiming, ht]

lemma imageTiming_title_content (C : ℕ) (D : ℚ) (hC : 1 ≤ C)
    (hRem : 0 < D - min 4 (D * 0.5)) (k : ℕ) (t : ℚ)
    (h1 : min 4 (D * 0.5) + (k : ℚ) * ((D - min 4 (D * 0.5)) / C) ≤ t)
    (h2 : t < min 4 (D * 0.5) + ((k : ℚ) + 1) * ((D - min 4 (D * 0.5)) / C)) :
    imageTiming true (C + 1) D t =
      ⟨1 + (k : ℤ), min 4 (D * 0.5) + (k : ℚ) * ((D - min 4 (D * 0.5)) / C),
        (D - min 4 (D * 0.5)) / C⟩ := by
  have hC' : (0 : ℚ) < (C : ℚ) := by exact_mod_cast hC
  have hper : 0 < (D - min 4 (D * 0.5)) / (C : ℚ) := div_pos hRem hC'
  have hkper : 0 ≤ (k : ℚ) * ((D - min 4 (D * 0.5)) / C) :=
    mul_nonneg (by positivity) (le_of_lt hper)
  have hT : ¬ t < min 4 (D * 0.5) := by linarith
  have hcast : ((C + 1 : ℕ) : ℚ) - 1 = (C : ℚ) := by push_cast; ring
  have hfl : ⌊(t - min 4 (D * 0.5)) / ((D - min 4 (D * 0.5)) / (C : ℚ))⌋ = (k : ℤ) := by
    refine floor_div_eq_of_mem _ _ k hper (by linarith) (by linarith)
  simp only [imageTiming, if_true, hT, if_false, hcast]
  rw [if_pos ⟨hRem, by omega⟩]
  simp only [hfl]
  norm_cast

lemma imageTiming_title_solo (D : ℚ) (t : ℚ) (hT : ¬ t < min 4 (D * 0.5)) :
    imageTiming true 1 D t = ⟨0, 0, D⟩ := by
  simp only [imageTiming, if_true]
  rw [if_neg hT, if_neg]
  rintro ⟨-, h⟩
  omega

/-- C2: with a title card, the title interval lasts `min 4 (D * 0.5)`.  When
`C ≥ 1` content images exist and time remains after the title card, content
image `k` occupies `[titleDur + k * per, titleDur + (k+1) * per)` with
`per = (D - titleDur) / C`; with no content images the title card is the
active image for all of `[0, D)`.  Concretely for `D = 10` and `C = 3`:
title interval of 4, then content intervals of 2 starting at 4, 6, 8. -/
theorem C2_titleCard_partition (C : ℕ) (D : ℚ) :
    (∀ t : ℚ, t < min 4 (D * 0.5) →
      imageTiming true (C + 1) D t = ⟨0, 0, min 4 (D * 0.5)⟩) ∧
    (1 ≤ C → 0 < D - min 4 (D * 0.5) →
      ∀ k : ℕ, ∀ t : ℚ,
        min 4 (D * 0.5) + (k : ℚ) * ((D - min 4 (D * 0.5)) / C) ≤ t →
        t < min 4 (D * 0.5) + ((k : ℚ) + 1) * ((D - min 4 (D * 0.5)) / C) →
        imageTiming true (C + 1) D t =
          ⟨1 + (k : ℤ), min 4 (D * 0.5) + (k : ℚ) * ((D - min 4 (D * 0.5)) / C),
            (D - min 4 (D * 0.5)) / C⟩) ∧
    (C = 0 → ∀ t : ℚ, (imageTiming true (C + 1) D t).imgIndex = 0) ∧
    (imageTiming true 4 10 2 = ⟨0, 0, 4⟩ ∧
      imageTiming true 4 10 5 = ⟨1, 4, 2⟩ ∧
      imageTiming true 4 10 7 = ⟨2, 6, 2⟩ ∧
      imageTiming true 4 10 9 = ⟨3, 8, 2⟩) := by
  refine ⟨fun t ht => imageTiming_title_head C D t ht,
    fun hC hRem k t h1 h2 => imageTiming_title_content C D hC hRem k t h1 h2,
    ?_, by norm_num [imageTiming]⟩
  intro hC0 t
  subst hC0
  by_cases ht : t < min 4 (D * 0.5)
  · rw [imageTiming_title_head 0 D t ht]
  · rw [imageTiming_title_solo D t ht]

/-- Witness for C2: duration 10 with three content images; elapsed 7 falls in
the second content interval `[6, 8)`. -/
theorem C2_titleCard_partition_witness :
    1 ≤ (3 : ℕ) ∧ (0 : ℚ) < 10 - min 4 (10 * 0.5) ∧
    imageTiming true 4 10 7 = ⟨2, 6, 2⟩ := by
  refine ⟨by norm_num, by norm_num, ?_⟩
  exact (C2_titleCard_partition 3 10).2.2.2.2.2.1

/-- C3: the Ken-Burns scale is `1 + (maxZoom - 1) * progress`, the progress
fed to it is clamped to `[0, 1]`, the scale is monotone in progress and stays
in `[1, maxZoom]` for every speed preset, and the presets are
`1.05 < 1.15 < 1.25` for Slow, Medium, Fast. -/
theorem C3_kenBurns_zoom (s : AnimationSpeed) (p q : ℚ)
    (hp0 : 0 ≤ p) (hp1 : p ≤ 1) (hpq : p ≤ q) (hq1 : q ≤ 1) :
    kenBurnsScale (zoomFactors s) p = 1 + (zoomFactors s - 1) * p ∧
    1 ≤ kenBurnsScale (zoomFactors s) p ∧
    kenBurnsScale (zoomFactors s) p ≤ zoomFactors s ∧
    kenBurnsScale (zoomFactors s) p ≤ kenBurnsScale (zoomFactors s) q ∧
    (∀ e st d : ℚ, 0 ≤ clampProgress e st d ∧ clampProgress e st d ≤ 1) ∧
    zoomFactors AnimationSpeed.Slow = 1.05 ∧
    zoomFactors AnimationSpeed.Medium = 1.15 ∧
    zoomFactors AnimationSpeed.Fast = 1.25 ∧
    zoomFactors AnimationSpeed.Slow < zoomFactors AnimationSpeed.Medium ∧
    zoomFactors AnimationSpeed.Medium < zoomFactors AnimationSpeed.Fast := by
  have hz : 1 < zoomFactors s := by cases s <;> norm_num [zoomFactors]
  refine ⟨by norm_num [kenBurnsScale], ?_, ?_, ?_, ?_, rfl, rfl, rfl,
    by norm_num [zoomFactors], by norm_num [zoomFactors]⟩
  · simp only [kenBurnsScale]
    nlinarith
  · simp only [kenBurnsScale]
    nlinarith
  · simp only [kenBurnsScale]
    nlinarith
  · intro e st d
    constructor
    · exact le_min (by norm_num) (le_max_left 0 _)
    · exact min_le_left 1 _

/-- Witness for C3 at speed Medium, progress `1/4 ≤ 1/2`. -/
theorem C3_kenBurns_zoom_witness :
    (0 : ℚ) ≤ 1/4 ∧ (1/4 : ℚ) ≤ 1 ∧ (1/4 : ℚ) ≤ 1/2 ∧ (1/2 : ℚ) ≤ 1 ∧
    1 ≤ kenBurnsScale (zoomFactors AnimationSpeed.Medium) (1/4) := by
  refine ⟨by norm_num, by norm_num, by norm_num, by norm_num, ?_⟩
  exact (C3_kenBurns_zoom AnimationSpeed.Medium (1/4) (1/2) (by norm_num)
    (by norm_num) (by norm_num) (by norm_num)).2.1

lemma frameOps_none_eq (n : ℕ) (tm : ImageTiming) (e : ℚ) :
    frameOps Transition.None n tm e =
      [⟨(currentImageIndex tm.imgIndex n).toNat,
        clampProgress e tm.startTime tm.imageDuration, 1⟩] := by
  simp only [frameOps]
  split
  · rename_i h
    exact absurd h.1 (by decide)
  · norm_num

lemma frameOps_fade_window (n : ℕ) (tm : ImageTiming) (e : ℚ)
    (hidx : tm.imgIndex < (n : ℤ) - 1)
    (hrem : tm.imageDuration - (e - tm.startTime) < 0.5) :
    frameOps Transition.Fade n tm e =
      [⟨(currentImageIndex tm.imgIndex n).toNat,
          clampProgress e tm.startTime tm.imageDuration, 1⟩,
        ⟨(tm.imgIndex + 1).toNat, 0,
          1 - (tm.imageDuration - (e - tm.startTime)) / (1/2)⟩] := by
  have hfd : fadeDuration Transition.Fade = 1/2 := by norm_num [fadeDuration]
  simp only [frameOps, hfd]
  split
  · split
    · norm_num
    · rename_i h2
      exact absurd (by linarith : tm.imageDuration - (e - tm.startTime) < 1/2) h2
  · rename_i h
    exact absurd ⟨trivial, hidx⟩ h

/-- C4: under a Fade transition, when the active image is not the last and
fewer than `0.5` time units remain in its interval, the frame draws the
current image at full opacity and the next image on top at opacity
`1 - timeRemaining / 0.5` with zoom progress 0; outside that window, on the
last image, or with transition None, only the current image is drawn at full
opacity.  At `elapsed = start + duration - 0.25` the incoming opacity is
exactly `0.5`. -/
theorem C4_fade_transition (n : ℕ) (tm : ImageTiming) (e : ℚ) :
    (tm.imgIndex < (n : ℤ) - 1 →
      tm.imageDuration - (e - tm.startTime) < 0.5 →
      frameOps Transition.Fade n tm e =
        [⟨(currentImageIndex tm.imgIndex n).toNat,
            clampProgress e tm.startTime tm.imageDuration, 1⟩,
          ⟨(tm.imgIndex + 1).toNat, 0,
            1 - (tm.imageDuration - (e - tm.startTime)) / (1/2)⟩]) ∧
    (tm.imgIndex < (n : ℤ) - 1 →
      ¬ tm.imageDuration - (e - tm.startTime) < 0.5 →
      frameOps Transition.Fade n tm e =
        [⟨(currentImageIndex tm.imgIndex n).toNat,
            clampProgress e tm.startTime tm.imageDuration, 1⟩]) ∧
    (¬ tm.imgIndex < (n : ℤ) - 1 →
      frameOps Transition.Fade n tm e =
        [⟨(currentImageIndex tm.imgIndex n).toNat,
            clampProgress e tm.startTime tm.imageDuration, 1⟩]) ∧
    (frameOps Transition.None n tm e =
      [⟨(currentImageIndex tm.imgIndex n).toNat,
          clampProgress e tm.startTime tm.imageDuration, 1⟩]) ∧
    (tm.imgIndex < (n : ℤ) - 1 → e = tm.startTime + tm.imageDuration - 0.25 →
      frameOps Transition.Fade n tm e =
        [⟨(currentImageIndex tm.imgIndex n).toNat,
            clampProgress e tm.startTime tm.imageDuration, 1⟩,
          ⟨(tm.imgIndex + 1).toNat, 0, 1/2⟩]) := by
  have hfd : fadeDuration Transition.Fade = 1/2 := by norm_num [fadeDuration]
  refine ⟨?_, ?_, ?_, frameOps_none_eq n tm e, ?_⟩
  · exact fun hidx hrem => frameOps_fade_window n tm e hidx hrem
  · intro hidx hrem
    simp only [frameOps, hfd]
    split
    · split
      · rename_i h2
        exact absurd (by linarith : tm.imageDuration - (e - tm.startTime) < 0.5) hrem
      · norm_num
    · rename_i h
      exact absurd ⟨trivial, hidx⟩ h
  · intro hidx
    simp only [frameOps]
    split
    · rename_i h
      exact absurd h.2 hidx
    · norm_num
  · intro hidx he
    rw [frameOps_fade_window n tm e hidx (by rw [he]; linarith)]
    have hX : tm.imageDuration - (e - tm.startTime) = 1/4 := by
      rw [he]; linarith
    rw [hX]
    norm_num

/-- Witness for C4: 3 images, second interval `[1, 2)`, elapsed `1.75`
(timeRemaining `0.25`); the incoming image is drawn at opacity `0.5`. -/
theorem C4_fade_transition_witness :
    ((1 : ℤ) < (3 : ℕ) - 1) ∧
    ((1 : ℚ) - ((7/4 : ℚ) - 1) < 0.5) ∧
    frameOps Transition.Fade 3 ⟨1, 1, 1⟩ (7/4) =
      [⟨(currentImageIndex 1 3).toNat, clampProgress (7/4) 1 1, 1⟩,
        ⟨(1 + 1 : ℤ).toNat, 0, 1 - ((1 : ℚ) - ((7/4 : ℚ) - 1)) / (1/2)⟩] := by
  refine ⟨by norm_num, by norm_num, ?_⟩
  exact (C4_fade_transition 3 ⟨1, 1, 1⟩ (7/4)).1 (by norm_num) (by norm_num)

/-- C9: the index actually used to access `loadedImages` on every tick is
`min imgIndex (numImages - 1)`; it is in bounds whenever at least one image
is loaded, even when the computed index reaches or exceeds the image count,
and every `drawImage` call of a frame stays in bounds. -/
theorem C9_drawn_index_in_bounds (t : Transition) (n : ℕ) (tm : ImageTiming)
    (e : ℚ) (hn : 0 < n) :
    (0 ≤ tm.imgIndex → 0 ≤ currentImageIndex tm.imgIndex n) ∧
    (currentImageIndex tm.imgIndex n).toNat < n ∧
    ((n : ℤ) - 1 ≤ tm.imgIndex → currentImageIndex tm.imgIndex n = (n : ℤ) - 1) ∧
    (frameOps t n tm e).head? = some ⟨(currentImageIndex tm.imgIndex n).toNat,
      clampProgress e tm.startTime tm.imageDuration, 1⟩ ∧
    (∀ op ∈ frameOps t n tm e, op.imgIdx < n) := by
  have hcur : (currentImageIndex tm.imgIndex n).toNat < n := by
    have h1 : currentImageIndex tm.imgIndex n ≤ (n : ℤ) - 1 :=
      min_le_right _ _
    have h2 : (currentImageIndex tm.imgIndex n).toNat ≤ ((n : ℤ) - 1).toNat :=
      Int.toNat_le_toNat h1
    omega
  refine ⟨?_, hcur, ?_, ?_, ?_⟩
  · intro h0
    exact le_min h0 (by omega)
  · intro hge
    exact min_eq_right hge
  · simp only [frameOps]
    split
    · split
      · norm_num
      · norm_num
    · norm_num
  · intro op hop
    simp only [frameOps] at hop
    split at hop
    · rename_i hcond
      split at hop
      · rcases List.mem_pair.mp hop with h | h
        · rw [h]; exact hcur
        · rw [h]
          simp only
          omega
      · rw [List.mem_singleton.mp hop]
        exact hcur
    · rw [List.mem_singleton.mp hop]
      exact hcur

/-- Witness for C9: 2 loaded images, computed index 5 (beyond the image
count); the access is clamped to index 1. -/
theorem C9_drawn_index_in_bounds_witness :
    0 < (2 : ℕ) ∧
    (currentImageIndex 5 2).toNat < 2 ∧
    (frameOps Transition.None 2 ⟨5, 0, 1⟩ 6).head? =
      some ⟨(currentImageIndex 5 2).toNat, clampProgress 6 0 1, 1⟩ := by
  refine ⟨by norm_num, ?_, ?_⟩
  · exact (C9_drawn_index_in_bounds Transition.None 2 ⟨5, 0, 1⟩ 6 (by norm_num)).2.1
  · exact (C9_drawn_index_in_bounds Transition.None 2 ⟨5, 0, 1⟩ 6 (by norm_num)).2.2.2.1

/-- C5: a section whose combined image list is empty after discarding empty
entries is skipped entirely: zero frames, zero duration, no narration, and
the surrounding timeline is exactly the timeline without that section. -/
theorem C5_empty_section_skipped (env : MediaEnv) (s : GeneratedSection)
    (pre post : List GeneratedSection) (h : validSrcs s = []) :
    renderSection env s = ⟨0, false, 0, false⟩ ∧
    totalDuration env (pre ++ s :: post) = totalDuration env (pre ++ post) ∧
    totalFrames env (pre ++ s :: post) = totalFrames env (pre ++ post) := by
  have hr : renderSection env s = ⟨0, false, 0, false⟩ := by
    simp only [renderSection, if_pos h]
  refine ⟨hr, ?_, ?_⟩
  · simp [totalDuration, List.map_append, List.sum_append, hr]
  · simp [totalFrames, List.map_append, List.sum_append, hr]

/-- Witness for C5: a section holding only empty-string assets, between two
renderable sections. -/
theorem C5_empty_section_skipped_witness :
    validSrcs ⟨none, [""], some "voice.wav", some ""⟩ = [] ∧
    renderSection ⟨fun _ => some 7⟩ ⟨none, [""], some "voice.wav", some ""⟩ =
      ⟨0, false, 0, false⟩ ∧
    totalDuration ⟨fun _ => some 7⟩
        ([⟨none, ["a"], none, none⟩] ++ ⟨none, [""], some "voice.wav", some ""⟩ ::
          [⟨none, ["b"], none, none⟩]) =
      totalDuration ⟨fun _ => some 7⟩
        ([⟨none, ["a"], none, none⟩] ++ [⟨none, ["b"], none, none⟩]) := by
  have h : validSrcs ⟨none, [""], some "voice.wav", some ""⟩ = [] := by decide
  refine ⟨h, ?_, ?_⟩
  · exact (C5_empty_section_skipped ⟨fun _ => some 7⟩ _ [⟨none, ["a"], none, none⟩]
      [⟨none, ["b"], none, none⟩] h).1
  · exact (C5_empty_section_skipped ⟨fun _ => some 7⟩ _ [⟨none, ["a"], none, none⟩]
      [⟨none, ["b"], none, none⟩] h).2.1

/-- C6: the section duration is the decoded narration duration when narration
exists and decodes, and the fixed fallback 5 when narration is absent or the
decode fails; a decode failure never aborts — the section still renders its
frames, silently. -/
theorem C6_narration_duration_fallback (env : MediaEnv) (s : GeneratedSection) :
    (∀ src d, s.generatedAudio = some src → src ≠ "" →
      env.decodeAudio src = some d → sectionDuration env s = d) ∧
    (s.generatedAudio = none → sectionDuration env s = 5) ∧
    (∀ src, s.generatedAudio = some src → env.decodeAudio src = none →
      sectionDuration env s = 5 ∧
      (validSrcs s ≠ [] →
        renderSection env s = ⟨5, false, tickCount 5, true⟩)) := by
  refine ⟨?_, ?_, ?_⟩
  · intro src d hsrc hne hdec
    simp [sectionDuration, decodeVoice, hsrc, hne, hdec]
  · intro hnone
    simp [sectionDuration, decodeVoice, hnone]
  · intro src hsrc hdec
    have hv : decodeVoice env s = none := by
      by_cases he : src = ""
      · simp [decodeVoice, hsrc, he]
      · simp [decodeVoice, hsrc, he, hdec]
    have hd : sectionDuration env s = 5 := by simp [sectionDuration, hv]
    refine ⟨hd, ?_⟩
    intro hne
    simp only [renderSection, if_neg hne, hv, hd]
    rfl

/-- Witness for C6: narration present but its decode fails; the section
renders 150 silent frames over the fallback duration 5. -/
theorem C6_narration_duration_fallback_witness :
    (GeneratedSection.mk none ["a"] (some "voice.wav") none).generatedAudio =
      some "voice.wav" ∧
    (MediaEnv.mk fun _ => none).decodeAudio "voice.wav" = none ∧
    validSrcs ⟨none, ["a"], some "voice.wav", none⟩ ≠ [] ∧
    sectionDuration ⟨fun _ => none⟩ ⟨none, ["a"], some "voice.wav", none⟩ = 5 ∧
    renderSection ⟨fun _ => none⟩ ⟨none, ["a"], some "voice.wav", none⟩ =
      ⟨5, false, tickCount 5, true⟩ := by
  have hne : validSrcs ⟨none, ["a"], some "voice.wav", none⟩ ≠ [] := by decide
  refine ⟨rfl, rfl, hne, ?_, ?_⟩
  · exact ((C6_narration_duration_fallback ⟨fun _ => none⟩
      ⟨none, ["a"], some "voice.wav", none⟩).2.2 "voice.wav" rfl rfl).1
  · exact ((C6_narration_duration_fallback ⟨fun _ => none⟩
      ⟨none, ["a"], some "voice.wav", none⟩).2.2 "voice.wav" rfl rfl).2 hne

/-- C7: the background track is prepared exactly when a (truthy) handle is
present, the configured gain is positive and the handle decodes; it then
loops with gain `bgMusicVolume * 0.5`, is started before any section and
stopped after the last one; a decode failure leaves the render running with
no background track. -/
theorem C7_background_music (env : MediaEnv) (data : ProjectData)
    (bm : String) (cfg : VideoConfig)
    (hbm : data.backgroundMusic = some bm) (hcfg : data.config = some cfg) :
    ((bgTrack env data).isSome ↔
      bm ≠ "" ∧ cfg.bgMusicVolume > 0 ∧ (env.decodeAudio bm).isSome) ∧
    (∀ bt, bgTrack env data = some bt →
      bt.gain = cfg.bgMusicVolume * 0.5 ∧ bt.loop = true) ∧
    (∀ bt, bgTrack env data = some bt →
      renderEvents env data =
        RenderEvent.bgStart bt.gain bt.loop ::
          (((sections data).map fun s => RenderEvent.sectionDone (renderSection env s)) ++
            [RenderEvent.bgStop])) ∧
    (env.decodeAudio bm = none →
      bgTrack env data = none ∧
      renderEvents env data =
        (sections data).map fun s => RenderEvent.sectionDone (renderSection env s)) := by
  have hbt : bgTrack env data =
      (if bm ≠ "" ∧ cfg.bgMusicVolume ≠ 0 ∧ cfg.bgMusicVolume > 0 then
        match env.decodeAudio bm with
        | some _ => some ⟨cfg.bgMusicVolume * 0.5, true⟩
        | none => none
      else none) := by
    simp only [bgTrack, hbm, hcfg]
  refine ⟨?_, ?_, ?_, ?_⟩
  · rw [hbt]
    by_cases hc : bm ≠ "" ∧ cfg.bgMusicVolume ≠ 0 ∧ cfg.bgMusicVolume > 0
    · rw [if_pos hc]
      cases hdec : env.decodeAudio bm with
      | none => simp [hdec, hc]
      | some d => simp [hdec, hc.1, hc.2.2]
    · rw [if_neg hc]
      simp only [Option.isSome_none, Bool.false_eq_true, false_iff]
      rintro ⟨h1, h2, h3⟩
      exact hc ⟨h1, ne_of_gt h2, h2⟩
  · intro bt hsome
    rw [hbt] at hsome
    by_cases hc : bm ≠ "" ∧ cfg.bgMusicVolume ≠ 0 ∧ cfg.bgMusicVolume > 0
    · rw [if_pos hc] at hsome
      cases hdec : env.decodeAudio bm with
      | none => rw [hdec] at hsome; exact absurd hsome (by simp)
      | some d =>
        rw [hdec] at hsome
        cases hsome
        exact ⟨rfl, rfl⟩
    · rw [if_neg hc] at hsome
      exact absurd hsome (by simp)
  · intro bt hsome
    simp [renderEvents, hsome]
  · intro hdec
    have hnone : bgTrack env data = none := by
      rw [hbt]
      by_cases hc : bm ≠ "" ∧ cfg.bgMusicVolume ≠ 0 ∧ cfg.bgMusicVolume > 0
      · rw [if_pos hc, hdec]
      · rw [if_neg hc]
    refine ⟨hnone, ?_⟩
    simp [renderEvents, hnone]

/-- Witness for C7: a one-section project with a decodable background track
at gain `0.8`; the track loops at gain `0.4`, starting before the section and
stopping after it. -/
theorem C7_background_music_witness :
    (ProjectData.mk ⟨none, ["a"], none, none⟩ [] (some ⟨"16:9", AnimationSpeed.Medium,
        Transition.None, 4/5⟩) (some "bg.mp3")).backgroundMusic = some "bg.mp3" ∧
    bgTrack ⟨fun _ => some 9⟩ ⟨⟨none, ["a"], none, none⟩, [],
        some ⟨"16:9", AnimationSpeed.Medium, Transition.None, 4/5⟩, some "bg.mp3"⟩ =
      some ⟨(4/5 : ℚ) * 0.5, true⟩ ∧
    renderEvents ⟨fun _ => some 9⟩ ⟨⟨none, ["a"], none, none⟩, [],
        some ⟨"16:9", AnimationSpeed.Medium, Transition.None, 4/5⟩, some "bg.mp3"⟩ =
      RenderEvent.bgStart ((4/5 : ℚ) * 0.5) true ::
        ((sections ⟨⟨none, ["a"], none, none⟩, [],
            some ⟨"16:9", AnimationSpeed.Medium, Transition.None, 4/5⟩,
            some "bg.mp3"⟩).map fun s =>
          RenderEvent.sectionDone (renderSection ⟨fun _ => some 9⟩ s)) ++
          [RenderEvent.bgStop] := by
  have hbt : bgTrack ⟨fun _ => some 9⟩ ⟨⟨none, ["a"], none, none⟩, [],
      some ⟨"16:9", AnimationSpeed.Medium, Transition.None, 4/5⟩, some "bg.mp3"⟩ =
      some ⟨(4/5 : ℚ) * 0.5, true⟩ := by
    rw [bgTrack]
    norm_num
    decide
  refine ⟨rfl, hbt, ?_⟩
  exact (C7_background_music ⟨fun _ => some 9⟩ _ "bg.mp3"
    ⟨"16:9", AnimationSpeed.Medium, Transition.None, 4/5⟩ rfl rfl).2.2.1 _ hbt

lemma wrapLoop_ne_nil (measure : String → ℚ) (maxWidth : ℚ)
    (ws : List String) (n : ℕ) (line : String) :
    wrapLoop measure maxWidth ws n line ≠ [] := by
  induction ws generalizing n line with
  | nil => simp [wrapLoop]
  | cons w ws ih =>
    simp only [wrapLoop]
    split
    · simp
    · exact ih (n + 1) _

/-- C8: `generateTitleCard` has no error path: for every text (the empty
string included) and every aspect-ratio argument it produces an asset — a
black canvas of 1080×1920 for `"9:16"` and 1920×1080 otherwise, with white
text wrapped into at least one line — and its output is determined by the
text and the font metrics alone. -/
theorem C8_generateTitleCard_total (measure : String → ℚ) (text ar : String) :
    (ar = "9:16" → (generateTitleCard measure text ar).width = 1080 ∧
      (generateTitleCard measure text ar).height = 1920) ∧
    (ar ≠ "9:16" → (generateTitleCard measure text ar).width = 1920 ∧
      (generateTitleCard measure text ar).height = 1080) ∧
    (generateTitleCard measure text ar).background = "#000000" ∧
    (generateTitleCard measure text ar).textColor = "#FFFFFF" ∧
    (generateTitleCard measure text ar).lines ≠ [] ∧
    (generateTitleCard measure "" ar).lines.length = 1 ∧
    (∀ measure2 : String → ℚ, (∀ u, measure u = measure2 u) →
      generateTitleCard measure text ar = generateTitleCard measure2 text ar) := by
  refine ⟨?_, ?_, rfl, rfl, ?_, ?_, ?_⟩
  · intro h
    simp [generateTitleCard, titleCardDims, h]
  · intro h
    simp [generateTitleCard, titleCardDims, h]
  · exact wrapLoop_ne_nil measure _ _ 0 ""
  · have hsplit : jsSplitSpace "" = [""] := rfl
    simp [generateTitleCard, hsplit, wrapLoop]
  · intro measure2 h
    have : measure = measure2 := funext h
    rw [this]

/-- Witness for C8: empty text in portrait orientation still yields the
full-size black card with one line. -/
theorem C8_generateTitleCard_total_witness :
    ("9:16" : String) = "9:16" ∧
    (generateTitleCard (fun _ => 0) "" "9:16").width = 1080 ∧
    (generateTitleCard (fun _ => 0) "" "9:16").height = 1920 ∧
    (generateTitleCard (fun _ => 0) "" "9:16").lines ≠ [] := by
  refine ⟨rfl, ?_, ?_, ?_⟩
  · exact ((C8_generateTitleCard_total (fun _ => 0) "" "9:16").1 rfl).1
  · exact ((C8_generateTitleCard_total (fun _ => 0) "" "9:16").1 rfl).2
  · exact (C8_generateTitleCard_total (fun _ => 0) "" "9:16").2.2.2.2.1

/-- Counterexample to C10 as stated: under a Fade transition, 2 images of
which the active first failed to load (width 0) and the second loaded, at
elapsed `4/5` of interval `[0, 1)` the fade window is active and the frame
draws the incoming image — it is not solid black, although the active image
failed to load. -/
theorem C10_counterexample :
    (loadImage (fun _ => none) "a").width = 0 ∧
    (imageTiming false 2 2 (4/5)).imgIndex = 0 ∧
    renderedFrame 1280 720 (zoomFactors AnimationSpeed.Medium)
        [loadImage (fun _ => none) "a", ⟨100, 100⟩]
        (frameOps Transition.Fade 2 (imageTiming false 2 2 (4/5)) (4/5)) ≠ [] := by
  have htm : imageTiming false 2 2 (4/5) = ⟨0, 0, 1⟩ := by
    have h := imageTiming_noTitle_interval 2 2 (by norm_num) (by norm_num) 0 (4/5)
      (by push_cast; norm_num) (by push_cast; norm_num)
    rw [h]
    norm_num
  have hops : frameOps Transition.Fade 2 (⟨0, 0, 1⟩ : ImageTiming) (4/5) =
      [⟨0, 4/5, 1⟩, ⟨1, 0, 3/5⟩] := by
    have h := frameOps_fade_window 2 ⟨0, 0, 1⟩ (4/5) (by norm_num) (by norm_num)
    rw [h]
    norm_num [clampProgress, currentImageIndex]
  refine ⟨rfl, by rw [htm], ?_⟩
  rw [htm, hops]
  simp [renderedFrame, List.filterMap, drawImage, loadImage]

lemma frameOps_single_op (t : Transition) (n : ℕ) (tm : ImageTiming) (e : ℚ)
    (h : t = Transition.None ∨ ¬ tm.imgIndex < (n : ℤ) - 1 ∨
      ¬ tm.imageDuration - (e - tm.startTime) < 0.5) :
    frameOps t n tm e =
      [⟨(currentImageIndex tm.imgIndex n).toNat,
        clampProgress e tm.startTime tm.imageDuration, 1⟩] := by
  simp only [frameOps]
  split
  · rename_i hc
    split
    · rename_i hwin
      exfalso
      rcases h with h | h | h
      · rw [h] at hc
        exact absurd hc.1 (by decide)
      · exact h hc.2
      · rw [hc.1] at hwin
        have hfd : fadeDuration Transition.Fade = 0.5 := by norm_num [fadeDuration]
        rw [hfd] at hwin
        exact h hwin
    · norm_num
  · norm_num

/-- C10 (amended): preloading never rejects — a failed load yields a width-0
image; the draw helper is a no-op for a null or width-0 image; and a frame
whose active image failed to load draws nothing for it, so that whenever no
cross-fade overlay applies — transition None, or Fade on the last image of
the section, or Fade outside the final 0.5-unit window — the frame is solid
black. -/
theorem C10_failed_image_black_frame (load : String → Option Img) (src : String)
    (W H n : ℕ) (maxZoom progress alpha e : ℚ) (img : Img) (tm : ImageTiming)
    (images : List Img) :
    (load src = none → loadImage load src = ⟨0, 0⟩) ∧
    drawImage W H maxZoom none progress alpha = none ∧
    (img.width = 0 → drawImage W H maxZoom (some img) progress alpha = none) ∧
    (∀ t : Transition,
      (t = Transition.None ∨ ¬ tm.imgIndex < (n : ℤ) - 1 ∨
        ¬ tm.imageDuration - (e - tm.startTime) < 0.5) →
      (∀ im, images[(currentImageIndex tm.imgIndex n).toNat]? = some im →
        im.width = 0) →
      renderedFrame W H maxZoom images (frameOps t n tm e) = []) := by
  refine ⟨?_, rfl, ?_, ?_⟩
  · intro h
    simp [loadImage, h]
  · intro h
    simp [drawImage, h]
  · intro t hcase h
    rw [renderedFrame, frameOps_single_op t n tm e hcase]
    simp only [List.filterMap]
    cases hget : images[(currentImageIndex tm.imgIndex n).toNat]? with
    | none => rfl
    | some im =>
      have hw : im.width = 0 := h im hget
      simp [drawImage, hw]

/-- Witness for C10 (amended): one failed image; the frame is solid black
both under transition None and under Fade on the last (sole) image of the
section. -/
theorem C10_failed_image_black_frame_witness :
    ((fun _ : String => (none : Option Img)) "a" = none) ∧
    loadImage (fun _ => none) "a" = ⟨0, 0⟩ ∧
    renderedFrame 1280 720 (zoomFactors AnimationSpeed.Medium)
        [loadImage (fun _ => none) "a"]
        (frameOps Transition.None 1 (imageTiming false 1 5 2) 2) = [] ∧
    renderedFrame 1280 720 (zoomFactors AnimationSpeed.Medium)
        [loadImage (fun _ => none) "a"]
        (frameOps Transition.Fade 1 (imageTiming false 1 5 2) 2) = [] := by
  have htm : imageTiming false 1 5 2 = ⟨0, 0, 5⟩ := by
    have h := imageTiming_noTitle_interval 1 5 (by norm_num) (by norm_num) 0 2
      (by push_cast; norm_num) (by push_cast; norm_num)
    rw [h]
    norm_num
  have hidx : (currentImageIndex (imageTiming false 1 5 2).imgIndex 1).toNat = 0 := by
    rw [htm]
    norm_num [currentImageIndex]
  have himg : ∀ im, [loadImage (fun _ => none) "a"][(currentImageIndex
      (imageTiming false 1 5 2).imgIndex 1).toNat]? = some im → im.width = 0 := by
    intro im h
    rw [hidx] at h
    simp only [List.getElem?_cons_zero, Option.some.injEq] at h
    rw [← h]
    rfl
  have hlast : ¬ (imageTiming false 1 5 2).imgIndex < ((1 : ℕ) : ℤ) - 1 := by
    rw [htm]
    decide
  refine ⟨rfl, ?_, ?_, ?_⟩
  · exact (C10_failed_image_black_frame (fun _ => none) "a" 1280 720 1
      (zoomFactors AnimationSpeed.Medium) 0 1 2 ⟨0, 0⟩ (imageTiming false 1 5 2)
      [loadImage (fun _ => none) "a"]).1 rfl
  · exact (C10_failed_image_black_frame (fun _ => none) "a" 1280 720 1
      (zoomFactors AnimationSpeed.Medium) 0 1 2 ⟨0, 0⟩ (imageTiming false 1 5 2)
      [loadImage (fun _ => none) "a"]).2.2.2 Transition.None (Or.inl rfl) himg
  · exact (C10_failed_image_black_frame (fun _ => none) "a" 1280 720 1
      (zoomFactors AnimationSpeed.Medium) 0 1 2 ⟨0, 0⟩ (imageTiming false 1 5 2)
      [loadImage (fun _ => none) "a"]).2.2.2 Transition.Fade
      (Or.inr (Or.inl hlast)) himg

end FY
